import Mathlib

/-!
Verification of the critical-mineral-app CRUD record store, validator,
audit trail and sharing registry against its specification.

The embedding follows the Python source:
  - src/lib/data_store.py   (CSVStore: load, save, append_row, delete_by_id, next_id)
  - src/lib/entities.py     (ENTITIES registry)
  - src/app.py              (admin_entity_add, admin_entity_edit, admin_entity_delete,
                             admin_audit_clear, log_event, is_dataset_shared_for_user,
                             add_dataset_share)

A CSV-backed DataFrame is modelled as a list of records; a record is an
association list from field names to values (int or string, as pandas
reads them).  A backing file is `Option (List Record)`: `none` models a
missing file.
-/

namespace MineralApp

/-- A cell value as pandas materialises it: an integer id or a string field. -/
inductive Value where
  | intV : Int → Value
  | strV : String → Value
  deriving DecidableEq, Repr

/-- A record (one DataFrame row): association list field name ↦ value. -/
abbrev Record : Type := List (String × Value)

/-- Column lookup in a row (first binding wins, as in a DataFrame a column
occurs once). -/
def Record.get (r : Record) (f : String) : Option Value :=
  (List.find? (fun p => p.1 = f) r).map (fun p => p.2)

/-- `df.at[idx, f] = v`: replace the binding for column `f` (append when the
column is absent; on schema-complete rows this never happens). -/
def Record.set : Record → String → Value → Record
  | [], f, v => [(f, v)]
  | (g, w) :: rest, f, v =>
      if g = f then (f, v) :: rest else (g, w) :: Record.set rest f v

/-- Integer reading of a cell, as `int(...)` succeeds on an id column. -/
def Value.toInt? : Value → Option Int
  | Value.intV n => some n
  | Value.strV _ => none

/-- The integer content of column `f` across a collection
(the id column of `df`). -/
def colInts (df : List Record) (f : String) : List Int :=
  df.filterMap (fun r => (Record.get r f).bind Value.toInt?)

/-- Maximum of a list of integers (`df[f].max()` on a nonempty frame). -/
def listMax : List Int → Int
  | [] => 0
  | x :: xs => xs.foldl max x

/-- The backing flat file: `none` when the file does not exist. -/
abbrev FileState : Type := Option (List Record)

/-- `CSVStore(path, id_field)`: only the identifier configuration matters to
the record-level semantics; the path is carried by `FileState` passing. -/
structure CSVStore where
  id_field : Option String
  deriving DecidableEq, Repr

/-- `CSVStore.load`: read the full collection; a missing file yields an
empty frame. -/
def CSVStore.load (file : FileState) : List Record :=
  file.getD []

/-- `CSVStore.save`: overwrite the backing file with exactly the given
records. -/
def CSVStore.save (df : List Record) : FileState :=
  some df

/-- `CSVStore.append_row`: load, add one row at the end, save.
Returns the resulting frame together with the new file state. -/
def CSVStore.append_row (file : FileState) (row : Record) :
    List Record × FileState :=
  let df := CSVStore.load file ++ [row]
  (df, CSVStore.save df)

/-- `CSVStore.delete_by_id`: load; when no id field is configured return the
frame unchanged without writing; otherwise keep the rows whose id column
differs from `id_value`, save, and return the resulting frame. -/
def CSVStore.delete_by_id (s : CSVStore) (file : FileState) (id_value : Value) :
    List Record × FileState :=
  let df := CSVStore.load file
  match s.id_field with
  | none => (df, file)
  | some f =>
      let kept := df.filter (fun r => Record.get r f ≠ some id_value)
      (kept, CSVStore.save kept)

/-- `CSVStore.next_id`: `int(df[id].max()) + 1` when an id field is
configured and the frame is nonempty, else `1`. -/
def CSVStore.next_id (s : CSVStore) (file : FileState) : Int :=
  let df := CSVStore.load file
  match s.id_field with
  | some f => if df.isEmpty then 1 else listMax (colInts df f) + 1
  | none => 1

/-! ### Form submissions and the Site validator (app.py) -/

/-- A submitted HTML form: association list field name ↦ submitted string. -/
abbrev Form : Type := List (String × String)

/-- `request.form` lookup without default. -/
def Form.find? (form : Form) (f : String) : Option String :=
  (List.find? (fun p => p.1 = f) form).map (fun p => p.2)

/-- `request.form.get(f, d)`. -/
def Form.get (form : Form) (f d : String) : String :=
  (Form.find? form f).getD d

/-- Numeric value of a digit run (most significant first). -/
def natOfDigits (cs : List Char) : Nat :=
  cs.foldl (fun a c => a * 10 + (c.toNat - 48)) 0

/-- All characters are decimal digits. -/
def allDigits (cs : List Char) : Bool :=
  cs.all (fun c => c.isDigit)

/-- Python `float(s)` on plain decimal literals: optional sign, an integer
part and an optional fractional part, at least one digit in total; every
other input raises (modelled as `none`).  Exact rational arithmetic stands
in for IEEE doubles; the validator bounds at these magnitudes agree. -/
def parseFloat? (s : String) : Option ℚ :=
  let cs := s.toList
  let signed : Bool × List Char :=
    match cs with
    | '-' :: rest => (true, rest)
    | '+' :: rest => (false, rest)
    | _ => (false, cs)
  let mk : ℚ → Option ℚ := fun q => some (if signed.1 then -q else q)
  match signed.2.splitOn '.' with
  | [ip] =>
      if allDigits ip ∧ ip ≠ [] then mk (natOfDigits ip) else none
  | [ip, fp] =>
      if allDigits ip ∧ allDigits fp ∧ (ip ≠ [] ∨ fp ≠ []) then
        mk ((natOfDigits ip : ℚ) + (natOfDigits fp : ℚ) / (10 : ℚ) ^ fp.length)
      else none
  | _ => none

def latitudeRangeError : String := "Latitude must be between -90 and 90"
def latitudeNumberError : String := "Latitude must be a valid number"
def longitudeRangeError : String := "Longitude must be between -180 and 180"
def longitudeNumberError : String := "Longitude must be a valid number"
def productionNegativeError : String := "Production_tonnes must be non-negative"
def productionNumberError : String := "Production_tonnes must be a number"

/-- The inline site validation of `admin_entity_add` / `admin_entity_edit`
(`if cfg['csv']=='sites.csv':` block): every rule is evaluated and the
violations are collected in order. -/
def validate_site (form : Form) : List String :=
  let latErrs :=
    match parseFloat? (Form.get form "Latitude" "") with
    | some lat => if -90 ≤ lat ∧ lat ≤ 90 then [] else [latitudeRangeError]
    | none => [latitudeNumberError]
  let lonErrs :=
    match parseFloat? (Form.get form "Longitude" "") with
    | some lon => if -180 ≤ lon ∧ lon ≤ 180 then [] else [longitudeRangeError]
    | none => [longitudeNumberError]
  let prodStr := Form.get form "Production_tonnes" "0"
  let prodErrs :=
    if prodStr = "" then []
    else
      match parseFloat? prodStr with
      | some v => if v < 0 then [productionNegativeError] else []
      | none => [productionNumberError]
  latErrs ++ lonErrs ++ prodErrs

/-! ### Entity registry (lib/entities.py) -/

/-- One `ENTITIES` entry: backing csv, identifier field, ordered fields,
human title. -/
structure EntityCfg where
  csv : String
  id : String
  fields : List String
  title : String
  deriving DecidableEq, Repr

def usersCfg : EntityCfg :=
  { csv := "users.csv", id := "UserID"
  , fields := ["UserID", "Username", "PasswordHash", "RoleID", "Email"]
  , title := "Users" }

def countriesCfg : EntityCfg :=
  { csv := "countries.csv", id := "CountryID"
  , fields := ["CountryID", "CountryName", "GDP_BillionUSD",
               "MiningRevenue_BillionUSD", "KeyProjects"]
  , title := "Countries" }

def mineralsCfg : EntityCfg :=
  { csv := "minerals.csv", id := "MineralID"
  , fields := ["MineralID", "MineralName", "Description", "MarketPriceUSD_per_tonne"]
  , title := "Minerals" }

def sitesCfg : EntityCfg :=
  { csv := "sites.csv", id := "SiteID"
  , fields := ["SiteID", "SiteName", "CountryID", "MineralID",
               "Latitude", "Longitude", "Production_tonnes"]
  , title := "Sites" }

def productionCfg : EntityCfg :=
  { csv := "production_stats.csv", id := "StatID"
  , fields := ["StatID", "Year", "CountryID", "MineralID",
               "Production_tonnes", "ExportValue_BillionUSD"]
  , title := "Production Stats" }

/-! ### Generic admin write handlers (app.py) -/

/-- Outcome of the POST branch of `admin_entity_add`: either the form is
re-rendered with the collected errors (no save), or the row is appended
with the freshly assigned id. -/
inductive AddOutcome where
  | rejected : List String → AddOutcome
  | added : Int → AddOutcome
  deriving DecidableEq, Repr

/-- `admin_entity_add` POST branch: generate the id
(`int(df[id].max())+1 if not df.empty else 1`), build the row from the
submitted values (missing field ⇒ empty string), run site validation when
the entity is backed by `sites.csv`, and either reject without saving or
append and save. -/
def admin_entity_add (cfg : EntityCfg) (file : FileState) (form : Form) :
    AddOutcome × FileState :=
  let df := CSVStore.load file
  let new_id : Int := if df.isEmpty then 1 else listMax (colInts df cfg.id) + 1
  let row : Record :=
    cfg.fields.map (fun f =>
      if f = cfg.id then (f, Value.intV new_id)
      else (f, Value.strV (Form.get form f "")))
  let errors := if cfg.csv = "sites.csv" then validate_site form else []
  if errors ≠ [] then (AddOutcome.rejected errors, file)
  else (AddOutcome.added new_id, CSVStore.save (df ++ [row]))

/-- Outcome of the POST branch of `admin_entity_edit`. -/
inductive EditOutcome where
  | notFound : EditOutcome
  | rejected : List String → EditOutcome
  | updated : EditOutcome
  deriving DecidableEq, Repr

/-- The per-row update of `admin_entity_edit`:
`df.at[idx,f] = request.form.get(f, df.at[idx,f])` for every non-id field
(the submitted value when present, otherwise the existing value). -/
def applyForm (fields : List String) (idf : String) (form : Form) (r : Record) :
    Record :=
  match fields with
  | [] => r
  | f :: rest =>
      let r2 :=
        if f = idf then r
        else
          match Form.find? form f with
          | some s => Record.set r f (Value.strV s)
          | none => r
      applyForm rest idf form r2

/-- Update the first row satisfying the test (`row.index[0]`); `none` when
no row matches (`row.empty`). -/
def updateFirst (test : Record → Bool) (upd : Record → Record) :
    List Record → Option (List Record)
  | [] => none
  | r :: rest =>
      if test r then some (upd r :: rest)
      else (updateFirst test upd rest).map (fun l => r :: l)

/-- `admin_entity_edit` POST branch: locate the row by id (first match),
overwrite its non-id fields from the form, run site validation when the
entity is backed by `sites.csv`, and either reject without saving (the
in-memory mutation is discarded) or save the updated frame. -/
def admin_entity_edit (cfg : EntityCfg) (file : FileState) (obj_id : Int)
    (form : Form) : EditOutcome × FileState :=
  let df := CSVStore.load file
  match updateFirst (fun r => decide (Record.get r cfg.id = some (Value.intV obj_id)))
      (applyForm cfg.fields cfg.id form) df with
  | none => (EditOutcome.notFound, file)
  | some df2 =>
      let errors := if cfg.csv = "sites.csv" then validate_site form else []
      if errors ≠ [] then (EditOutcome.rejected errors, file)
      else (EditOutcome.updated, CSVStore.save df2)

/-- `admin_entity_delete`: drop every row whose id column equals `obj_id`
and save. -/
def admin_entity_delete (cfg : EntityCfg) (file : FileState) (obj_id : Int) :
    FileState :=
  let df := CSVStore.load file
  CSVStore.save (df.filter (fun r => Record.get r cfg.id ≠ some (Value.intV obj_id)))

/-- Latitude violation as the spec words it: the submitted value fails to
parse as a number, or parses outside [-90, 90]. -/
def latViolation (form : Form) : Bool :=
  match parseFloat? (Form.get form "Latitude" "") with
  | some q => decide (q < -90 ∨ 90 < q)
  | none => true

/-- Longitude violation: fails to parse, or parses outside [-180, 180]. -/
def lonViolation (form : Form) : Bool :=
  match parseFloat? (Form.get form "Longitude" "") with
  | some q => decide (q < -180 ∨ 180 < q)
  | none => true

/-- Production violation: the submitted value is nonempty and fails to
parse, or parses negative (an empty submission defaults to 0). -/
def prodViolation (form : Form) : Bool :=
  let s := Form.get form "Production_tonnes" "0"
  if s = "" then false
  else
    match parseFloat? s with
    | some v => decide (v < 0)
    | none => true

/-- A submission violating at least one validator bound. -/
def siteViolation (form : Form) : Bool :=
  latViolation form || lonViolation form || prodViolation form

/-- The id-assigning append performed by the admin add path over the record
store: read `next_id`, append a row carrying that id. -/
def appendWithNextId (s : CSVStore) (idf : String) (file : FileState) :
    Int × FileState :=
  let n := CSVStore.next_id s file
  (n, (CSVStore.append_row file [(idf, Value.intV n)]).2)

/-- A store operation for lifecycle traces: an id-assigning append, or a
delete by id. -/
inductive StoreOp where
  | add : StoreOp
  | del : Int → StoreOp
  deriving DecidableEq, Repr

/-- Run a trace of store operations, returning the final file state and
the list of ids assigned at the appends, in order. -/
def runOps (s : CSVStore) (idf : String) :
    List StoreOp → FileState → FileState × List Int
  | [], file => (file, [])
  | StoreOp.add :: ops, file =>
      let step := appendWithNextId s idf file
      let rest := runOps s idf ops step.2
      (rest.1, step.1 :: rest.2)
  | StoreOp.del v :: ops, file =>
      runOps s idf ops (CSVStore.delete_by_id s file (Value.intV v)).2

/-! ### Audit trail (app.py: log_event, admin_audit_clear) -/

/-- Header line of `audit_log.csv`. -/
def auditHeader : String := "Timestamp,Username,Action,Path,Details"

/-- One quoted-CSV line: every field wrapped in double quotes. -/
def csvLine (fs : List String) : String :=
  "\"" ++ String.intercalate "\",\"" fs ++ "\""

/-- The line appended by `log_event(username, action, path, details)` at
timestamp `ts`. -/
def log_event_line (ts username action path details : String) : String :=
  csvLine [ts, username, action, path, details]

/-- Basename of the timestamped backup file
(`audit_log_{strftime}.bak.csv`). -/
def backupBasename (tsB : String) : String :=
  "audit_log_" ++ tsB ++ ".bak.csv"

/-- The synthetic entry written into the recreated log by
`admin_audit_clear`. -/
def clearedEntry (ts user tsB : String) : String :=
  csvLine [ts, user, "audit_cleared", "/admin/audit/clear",
    "Cleared recent audit log and backed up to " ++ backupBasename tsB]

/-- The entry appended by the `log_event(..., 'audit_clear', ...)` call at
the end of the success path of `admin_audit_clear`. -/
def auditClearEventEntry (ts2 user tsB : String) : String :=
  log_event_line ts2 user "audit_clear" "/admin/audit/clear"
    ("Backup: " ++ backupBasename tsB)

/-- Backup file plus live log after the clear. -/
structure AuditClearResult where
  backup : List String
  live : List String
  deriving DecidableEq, Repr

/-- Success path of `admin_audit_clear` (a log file is a list of lines):
copy the whole log to the backup, rewrite the live log as header plus the
synthetic `audit_cleared` entry, then `log_event` appends the
`audit_clear` entry.  `tsB` is the strftime stamp in the backup name, `ts`
and `ts2` the two `utcnow().isoformat()` stamps. -/
def admin_audit_clear (log : List String) (user tsB ts ts2 : String) :
    AuditClearResult :=
  { backup := log
  , live := [auditHeader, clearedEntry ts user tsB, auditClearEventEntry ts2 user tsB] }

/-! ### Sharing registry (app.py: add_dataset_share, is_dataset_shared_for_user) -/

/-- One line of `dataset_shares.csv` as written by `add_dataset_share`. -/
structure ShareEntry where
  sharedType : String
  sharedValue : String
  sharedBy : String
  timestamp : String
  deriving DecidableEq, Repr

/-- `add_dataset_share`: append one entry with the current timestamp. -/
def add_dataset_share (registry : List ShareEntry)
    (shared_type shared_value shared_by ts : String) : List ShareEntry :=
  registry ++ [⟨shared_type, shared_value, shared_by, ts⟩]

/-- The scan loop of `is_dataset_shared_for_user` over the data lines:
return true on the first matching role or user grant. -/
def shareScan (username role : String) : List ShareEntry → Bool
  | [] => false
  | e :: rest =>
      if e.sharedType = "role" ∧ e.sharedValue = role then true
      else if e.sharedType = "user" ∧ e.sharedValue = username then true
      else shareScan username role rest

/-- `is_dataset_shared_for_user`: Administrators always pass; otherwise
scan the registry, where `none` models both a missing registry file and a
read failure (the `except` branch), each answered `False`. -/
def is_dataset_shared_for_user (username role : String)
    (registry : Option (List ShareEntry)) : Bool :=
  if role = "Administrator" then true
  else
    match registry with
    | none => false
    | some entries => shareScan username role entries

/-! ## Helper lemmas -/

theorem le_foldl_max (xs : List Int) (a : Int) : a ≤ xs.foldl max a := by
  induction xs generalizing a with
  | nil => exact le_refl a
  | cons x xs ih => exact le_trans (le_max_left a x) (ih (max a x))

theorem mem_le_foldl_max (xs : List Int) (a : Int) (v : Int) (hv : v ∈ xs) :
    v ≤ xs.foldl max a := by
  induction xs generalizing a with
  | nil => cases hv
  | cons x xs ih =>
      rcases List.mem_cons.mp hv with h | h
      · subst h
        exact le_trans (le_max_right a v) (le_foldl_max xs (max a v))
      · exact ih (max a x) h

theorem mem_le_listMax (l : List Int) (v : Int) (hv : v ∈ l) : v ≤ listMax l := by
  cases l with
  | nil => cases hv
  | cons x xs =>
      rcases List.mem_cons.mp hv with h | h
      · subst h
        exact le_foldl_max xs v
      · exact mem_le_foldl_max xs x v h

/-- `next_id` strictly dominates every id currently stored in the frame. -/
theorem next_id_gt_stored (s : CSVStore) (f : String) (file : FileState)
    (h : s.id_field = some f) (v : Int)
    (hv : v ∈ colInts (CSVStore.load file) f) :
    v < CSVStore.next_id s file := by
  have hne : (CSVStore.load file).isEmpty = false := by
    cases hdf : CSVStore.load file with
    | nil =>
        rw [hdf] at hv
        cases hv
    | cons r rs => rfl
  have hle : v ≤ listMax (colInts (CSVStore.load file) f) :=
    mem_le_listMax _ v hv
  simp only [CSVStore.next_id, h, hne, Bool.false_eq_true, if_false]
  omega

theorem Record.get_cons (g : String) (w : Value) (rest : Record) (f : String) :
    Record.get ((g, w) :: rest) f = if g = f then some w else Record.get rest f := by
  by_cases h : g = f <;> simp [Record.get, List.find?, h]

theorem Record.get_set_self (r : Record) (f : String) (v : Value) :
    Record.get (Record.set r f v) f = some v := by
  induction r with
  | nil => simp [Record.set, Record.get_cons]
  | cons p rest ih =>
      obtain ⟨g, w⟩ := p
      by_cases h : g = f
      · simp [Record.set, h, Record.get_cons]
      · simp [Record.set, h, Record.get_cons, ih]

theorem Record.get_set_ne (r : Record) (f g : String) (v : Value) (hgf : g ≠ f) :
    Record.get (Record.set r f v) g = Record.get r g := by
  have hfg : ¬ (f = g) := fun h => hgf h.symm
  induction r with
  | nil =>
      simp [Record.set, Record.get_cons, hfg]
  | cons p rest ih =>
      obtain ⟨g0, w⟩ := p
      by_cases h : g0 = f
      · subst h
        simp [Record.set, Record.get_cons, hfg]
      · simp [Record.set, h, Record.get_cons, ih]

theorem applyForm_get_not_mem (fields : List String) (idf : String) (form : Form)
    (r : Record) (g : String) (hg : g ∉ fields) :
    Record.get (applyForm fields idf form r) g = Record.get r g := by
  induction fields generalizing r with
  | nil => rfl
  | cons f rest ih =>
      have hfg : f ≠ g := fun h => hg (h ▸ List.mem_cons_self f rest)
      have hrest : g ∉ rest := fun h => hg (List.mem_cons_of_mem f h)
      by_cases hid : f = idf
      · simp only [applyForm, hid, if_pos rfl]
        exact ih r hrest
      · simp only [applyForm, if_neg hid]
        cases hfind : Form.find? form f with
        | none => exact ih r hrest
        | some s =>
            rw [ih _ hrest]
            exact Record.get_set_ne r f g _ (fun h => hfg h.symm)

theorem applyForm_get_id (fields : List String) (idf : String) (form : Form)
    (r : Record) :
    Record.get (applyForm fields idf form r) idf = Record.get r idf := by
  induction fields generalizing r with
  | nil => rfl
  | cons f rest ih =>
      by_cases hid : f = idf
      · simp only [applyForm, hid, if_pos rfl]
        exact ih r
      · simp only [applyForm, if_neg hid]
        cases hfind : Form.find? form f with
        | none => exact ih r
        | some s =>
            rw [ih _]
            exact Record.get_set_ne r f idf _ (fun h => hid h.symm)

theorem applyForm_get_present (fields : List String) (idf : String) (form : Form)
    (r : Record) (g : String) (s : String)
    (hmem : g ∈ fields) (hne : g ≠ idf) (hfind : Form.find? form g = some s) :
    Record.get (applyForm fields idf form r) g = some (Value.strV s) := by
  induction fields generalizing r with
  | nil => cases hmem
  | cons f rest ih =>
      by_cases hrest : g ∈ rest
      · by_cases hid : f = idf
        · simp only [applyForm, hid, if_pos rfl]
          exact ih r hrest
        · simp only [applyForm, if_neg hid]
          cases Form.find? form f with
          | none => exact ih r hrest
          | some s2 => exact ih _ hrest
      · have hfg : f = g := by
          rcases List.mem_cons.mp hmem with h | h
          · exact h.symm
          · exact absurd h hrest
        subst hfg
        simp only [applyForm, if_neg hne, hfind]
        rw [applyForm_get_not_mem rest idf form _ f hrest]
        exact Record.get_set_self r f (Value.strV s)

theorem applyForm_get_absent (fields : List String) (idf : String) (form : Form)
    (r : Record) (g : String) (hfind : Form.find? form g = none) :
    Record.get (applyForm fields idf form r) g = Record.get r g := by
  induction fields generalizing r with
  | nil => rfl
  | cons f rest ih =>
      by_cases hid : f = idf
      · simp only [applyForm, hid, if_pos rfl]
        exact ih r
      · simp only [applyForm, if_neg hid]
        by_cases hfg : f = g
        · subst hfg
          rw [hfind]
          exact ih r
        · cases hf : Form.find? form f with
          | none => exact ih r
          | some s =>
              rw [ih _]
              exact Record.get_set_ne r f g _ (fun h => hfg h.symm)

theorem updateFirst_eq_some (test : Record → Bool) (upd : Record → Record)
    (l l2 : List Record) (h : updateFirst test upd l = some l2) :
    ∃ pre r post, l = pre ++ r :: post ∧ (∀ x ∈ pre, test x = false) ∧
      test r = true ∧ l2 = pre ++ upd r :: post := by
  induction l generalizing l2 with
  | nil => simp [updateFirst] at h
  | cons r rest ih =>
      by_cases hr : test r
      · refine ⟨[], r, rest, rfl, by simp, hr, ?_⟩
        simp only [updateFirst, if_pos hr, Option.some.injEq] at h
        rw [List.nil_append]
        exact h.symm
      · simp only [updateFirst, if_neg hr] at h
        cases hrec : updateFirst test upd rest with
        | none =>
            rw [hrec] at h
            simp at h
        | some l3 =>
            rw [hrec] at h
            simp only [Option.map_some', Option.some.injEq] at h
            obtain ⟨pre, rr, post, he, hpre, htest, hl3⟩ := ih l3 hrec
            refine ⟨r :: pre, rr, post, by rw [he, List.cons_append], ?_, htest, ?_⟩
            · intro x hx
              rcases List.mem_cons.mp hx with hx | hx
              · subst hx
                simpa using hr
              · exact hpre x hx
            · rw [← h, hl3]
              rfl

theorem updateFirst_isSome_of_exists (test : Record → Bool) (upd : Record → Record)
    (l : List Record) (h : ∃ r ∈ l, test r = true) :
    ∃ l2, updateFirst test upd l = some l2 := by
  induction l with
  | nil =>
      obtain ⟨r, hr, _⟩ := h
      cases hr
  | cons r rest ih =>
      by_cases hr : test r
      · exact ⟨upd r :: rest, by simp [updateFirst, hr]⟩
      · obtain ⟨r0, hr0, htest⟩ := h
        rcases List.mem_cons.mp hr0 with h0 | h0
        · subst h0
          exact absurd htest hr
        · obtain ⟨l2, hl2⟩ := ih ⟨r0, h0, htest⟩
          exact ⟨r :: l2, by simp [updateFirst, hr, hl2]⟩

theorem shareScan_eq_true_iff (username role : String) (es : List ShareEntry) :
    shareScan username role es = true ↔
      ∃ e ∈ es, (e.sharedType = "role" ∧ e.sharedValue = role) ∨
        (e.sharedType = "user" ∧ e.sharedValue = username) := by
  induction es with
  | nil => simp [shareScan]
  | cons e rest ih =>
      by_cases h1 : e.sharedType = "role" ∧ e.sharedValue = role
      · simp only [shareScan, if_pos h1, true_iff]
        exact ⟨e, List.mem_cons_self e rest, Or.inl h1⟩
      · by_cases h2 : e.sharedType = "user" ∧ e.sharedValue = username
        · simp only [shareScan, if_neg h1, if_pos h2, true_iff]
          exact ⟨e, List.mem_cons_self e rest, Or.inr h2⟩
        · simp only [shareScan, if_neg h1, if_neg h2, ih]
          constructor
          · rintro ⟨e0, he0, hcase⟩
            exact ⟨e0, List.mem_cons_of_mem e he0, hcase⟩
          · rintro ⟨e0, he0, hcase⟩
            rcases List.mem_cons.mp he0 with h | h
            · subst h
              rcases hcase with h | h
              · exact absurd h h1
              · exact absurd h h2
            · exact ⟨e0, h, hcase⟩

theorem latitude_range_message (form : Form) (q : ℚ)
    (hq : parseFloat? (Form.get form "Latitude" "") = some q)
    (hout : q < -90 ∨ 90 < q) :
    latitudeRangeError ∈ validate_site form := by
  have hnot : ¬ (-90 ≤ q ∧ q ≤ 90) := by
    rintro ⟨hlow, hhigh⟩
    rcases hout with h | h
    · exact absurd hlow (not_le.mpr h)
    · exact absurd hhigh (not_le.mpr h)
  unfold validate_site
  simp [hq, hnot]

theorem latitude_number_message (form : Form)
    (hq : parseFloat? (Form.get form "Latitude" "") = none) :
    latitudeNumberError ∈ validate_site form := by
  unfold validate_site
  simp [hq]

theorem longitude_range_message (form : Form) (q : ℚ)
    (hq : parseFloat? (Form.get form "Longitude" "") = some q)
    (hout : q < -180 ∨ 180 < q) :
    longitudeRangeError ∈ validate_site form := by
  have hnot : ¬ (-180 ≤ q ∧ q ≤ 180) := by
    rintro ⟨hlow, hhigh⟩
    rcases hout with h | h
    · exact absurd hlow (not_le.mpr h)
    · exact absurd hhigh (not_le.mpr h)
  unfold validate_site
  simp [hq, hnot]

theorem longitude_number_message (form : Form)
    (hq : parseFloat? (Form.get form "Longitude" "") = none) :
    longitudeNumberError ∈ validate_site form := by
  unfold validate_site
  simp [hq]

theorem production_negative_message (form : Form) (q : ℚ)
    (hs : Form.get form "Production_tonnes" "0" ≠ "")
    (hq : parseFloat? (Form.get form "Production_tonnes" "0") = some q)
    (hneg : q < 0) :
    productionNegativeError ∈ validate_site form := by
  unfold validate_site
  simp [hs, hq, hneg]

theorem production_number_message (form : Form)
    (hs : Form.get form "Production_tonnes" "0" ≠ "")
    (hq : parseFloat? (Form.get form "Production_tonnes" "0") = none) :
    productionNumberError ∈ validate_site form := by
  unfold validate_site
  simp [hs, hq]

/-- A bounds violation always produces at least one error message. -/
theorem validate_site_ne_nil (form : Form) (h : siteViolation form = true) :
    validate_site form ≠ [] := by
  have h3 : latViolation form = true ∨ lonViolation form = true ∨
      prodViolation form = true := by
    simpa [siteViolation, or_assoc] using h
  rcases h3 with hlat | hlon | hprod
  · unfold latViolation at hlat
    cases hq : parseFloat? (Form.get form "Latitude" "") with
    | none => exact List.ne_nil_of_mem (latitude_number_message form hq)
    | some q =>
        rw [hq] at hlat
        exact List.ne_nil_of_mem
          (latitude_range_message form q hq (of_decide_eq_true hlat))
  · unfold lonViolation at hlon
    cases hq : parseFloat? (Form.get form "Longitude" "") with
    | none => exact List.ne_nil_of_mem (longitude_number_message form hq)
    | some q =>
        rw [hq] at hlon
        exact List.ne_nil_of_mem
          (longitude_range_message form q hq (of_decide_eq_true hlon))
  · unfold prodViolation at hprod
    by_cases hs : Form.get form "Production_tonnes" "0" = ""
    · rw [if_pos hs] at hprod
      cases hprod
    · rw [if_neg hs] at hprod
      cases hq : parseFloat? (Form.get form "Production_tonnes" "0") with
      | none => exact List.ne_nil_of_mem (production_number_message form hs hq)
      | some q =>
          rw [hq] at hprod
          exact List.ne_nil_of_mem
            (production_negative_message form q hs hq (of_decide_eq_true hprod))

theorem filter_length_add_count (l : List Record) (p : Record → Bool) :
    (l.filter p).length + (l.filter (fun r => ! p r)).length = l.length := by
  induction l with
  | nil => rfl
  | cons r rest ih =>
      by_cases h : p r = true
      · simp [List.filter_cons, h]
        omega
      · simp [List.filter_cons, h]
        omega

/-! ## Claim theorems -/

/-- C10: when a CSVStore is constructed without an identifier field,
`delete_by_id` returns the loaded collection unchanged for every id value
and performs no write to the backing file, while `next_id` returns 1
regardless of the contents of the collection. -/
theorem C10_no_id_field_noop (s : CSVStore) (file : FileState) (idv : Value)
    (h : s.id_field = none) :
    CSVStore.delete_by_id s file idv = (CSVStore.load file, file) ∧
    CSVStore.next_id s file = 1 := by
  constructor
  · simp [CSVStore.delete_by_id, h]
  · simp [CSVStore.next_id, h]

/-- Witness for C10 at a concrete one-row store. -/
theorem C10_no_id_field_witness :
    CSVStore.delete_by_id ⟨none⟩ (some [[("A", Value.intV 7)]]) (Value.intV 7)
      = ([[("A", Value.intV 7)]], some [[("A", Value.intV 7)]]) ∧
    CSVStore.next_id ⟨none⟩ (some [[("A", Value.intV 7)]]) = 1 :=
  C10_no_id_field_noop ⟨none⟩ (some [[("A", Value.intV 7)]]) (Value.intV 7) rfl

/-- C8: after `delete_by_id(id)` a subsequent `load` returns no record
whose identifier equals that id; and when no stored record has that id the
operation leaves the stored collection unchanged (and, being a total
function, raises no error). -/
theorem C8_delete_then_load_frame (s : CSVStore) (f : String) (file : FileState)
    (idv : Value) (h : s.id_field = some f) :
    (∀ r ∈ CSVStore.load (CSVStore.delete_by_id s file idv).2,
        Record.get r f ≠ some idv) ∧
    ((∀ r ∈ CSVStore.load file, Record.get r f ≠ some idv) →
      CSVStore.load (CSVStore.delete_by_id s file idv).2 = CSVStore.load file) := by
  constructor
  · intro r hr
    simp only [CSVStore.delete_by_id, h, CSVStore.save, CSVStore.load,
      Option.getD_some] at hr
    simpa using (List.mem_filter.mp hr).2
  · intro hall
    simp only [CSVStore.delete_by_id, h, CSVStore.save, CSVStore.load,
      Option.getD_some]
    apply List.filter_eq_self.mpr
    intro r hr
    simpa using hall r hr

/-- Witness for C8: deleting id 1 from a two-row store, then deleting a
nonexistent id. -/
theorem C8_delete_then_load_witness :
    (∀ r ∈ CSVStore.load (CSVStore.delete_by_id ⟨some "CountryID"⟩
        (some [[("CountryID", Value.intV 1)], [("CountryID", Value.intV 2)]])
        (Value.intV 1)).2,
      Record.get r "CountryID" ≠ some (Value.intV 1)) ∧
    CSVStore.load (CSVStore.delete_by_id ⟨some "CountryID"⟩
        (some [[("CountryID", Value.intV 1)], [("CountryID", Value.intV 2)]])
        (Value.intV 9)).2
      = CSVStore.load
          (some [[("CountryID", Value.intV 1)], [("CountryID", Value.intV 2)]]) :=
  ⟨(C8_delete_then_load_frame ⟨some "CountryID"⟩ "CountryID"
      (some [[("CountryID", Value.intV 1)], [("CountryID", Value.intV 2)]])
      (Value.intV 1) rfl).1,
   (C8_delete_then_load_frame ⟨some "CountryID"⟩ "CountryID"
      (some [[("CountryID", Value.intV 1)], [("CountryID", Value.intV 2)]])
      (Value.intV 9) rfl).2 (by decide)⟩

/-- C2 counterexample: on a store holding exactly one record with id 1,
`delete_by_id 1` removes one record but returns the empty remaining
collection, whose length 0 is not the removal count 1 — the function
returns the collection after removal, not the number of records
removed. -/
theorem C2_returns_not_count :
    (CSVStore.delete_by_id ⟨some "CountryID"⟩ (some [[("CountryID", Value.intV 1)]])
        (Value.intV 1)).1 = [] ∧
    (CSVStore.load (some [[("CountryID", Value.intV 1)]])).length -
      ((CSVStore.delete_by_id ⟨some "CountryID"⟩ (some [[("CountryID", Value.intV 1)]])
        (Value.intV 1)).1).length = 1 ∧
    ((CSVStore.delete_by_id ⟨some "CountryID"⟩ (some [[("CountryID", Value.intV 1)]])
        (Value.intV 1)).1).length ≠ 1 := by
  decide

/-- C2 (amended): `delete_by_id` removes from the stored collection exactly
the records whose identifier field equals the given id, persists the
result, and returns the remaining collection (from whose length the count
removed is derivable), not the count itself. -/
theorem C2_delete_by_id_removes_and_persists (s : CSVStore) (f : String)
    (file : FileState) (idv : Value) (h : s.id_field = some f) :
    CSVStore.delete_by_id s file idv
      = ((CSVStore.load file).filter (fun r => Record.get r f ≠ some idv),
         some ((CSVStore.load file).filter (fun r => Record.get r f ≠ some idv))) ∧
    (∀ r ∈ (CSVStore.delete_by_id s file idv).1,
        r ∈ CSVStore.load file ∧ Record.get r f ≠ some idv) ∧
    (∀ r ∈ CSVStore.load file,
        Record.get r f ≠ some idv → r ∈ (CSVStore.delete_by_id s file idv).1) ∧
    ((CSVStore.delete_by_id s file idv).1).length +
        ((CSVStore.load file).filter (fun r => Record.get r f = some idv)).length
      = (CSVStore.load file).length := by
  have hd : CSVStore.delete_by_id s file idv
      = ((CSVStore.load file).filter (fun r => Record.get r f ≠ some idv),
         some ((CSVStore.load file).filter (fun r => Record.get r f ≠ some idv))) := by
    simp [CSVStore.delete_by_id, h, CSVStore.save]
  refine ⟨hd, ?_, ?_, ?_⟩
  · intro r hr
    rw [hd] at hr
    have := List.mem_filter.mp hr
    exact ⟨this.1, by simpa using this.2⟩
  · intro r hr hne
    rw [hd]
    exact List.mem_filter.mpr ⟨hr, by simpa using hne⟩
  · rw [hd]
    have := filter_length_add_count (CSVStore.load file)
      (fun r => decide (Record.get r f = some idv))
    simp only [decide_not] at this ⊢
    omega

/-- Witness for C2 (amended) at a concrete two-row store. -/
theorem C2_delete_by_id_witness :
    CSVStore.delete_by_id ⟨some "CountryID"⟩
        (some [[("CountryID", Value.intV 1)], [("CountryID", Value.intV 2)]])
        (Value.intV 1)
      = ((CSVStore.load (some [[("CountryID", Value.intV 1)],
            [("CountryID", Value.intV 2)]])).filter
           (fun r => Record.get r "CountryID" ≠ some (Value.intV 1)),
         some ((CSVStore.load (some [[("CountryID", Value.intV 1)],
            [("CountryID", Value.intV 2)]])).filter
           (fun r => Record.get r "CountryID" ≠ some (Value.intV 1)))) :=
  (C2_delete_by_id_removes_and_persists ⟨some "CountryID"⟩ "CountryID"
    (some [[("CountryID", Value.intV 1)], [("CountryID", Value.intV 2)]])
    (Value.intV 1) rfl).1

/-- C6: `next_id` returns 1 on an empty collection and max(existing ids)+1
otherwise; and, starting from an empty Country collection, adding Testland
then Otherland assigns CountryID 1 to Testland and CountryID 2 to
Otherland, stored in that insertion order. -/
theorem C6_next_id_spec_and_scenario :
    (∀ (s : CSVStore) (f : String) (file : FileState), s.id_field = some f →
      (CSVStore.load file = [] → CSVStore.next_id s file = 1) ∧
      (CSVStore.load file ≠ [] →
        CSVStore.next_id s file = listMax (colInts (CSVStore.load file) f) + 1)) ∧
    (admin_entity_add countriesCfg (some [])
        [("CountryName", "Testland"), ("GDP_BillionUSD", "10")]
      = (AddOutcome.added 1,
         some [[("CountryID", Value.intV 1), ("CountryName", Value.strV "Testland"),
                ("GDP_BillionUSD", Value.strV "10"),
                ("MiningRevenue_BillionUSD", Value.strV ""),
                ("KeyProjects", Value.strV "")]]) ∧
     admin_entity_add countriesCfg
        (some [[("CountryID", Value.intV 1), ("CountryName", Value.strV "Testland"),
                ("GDP_BillionUSD", Value.strV "10"),
                ("MiningRevenue_BillionUSD", Value.strV ""),
                ("KeyProjects", Value.strV "")]])
        [("CountryName", "Otherland"), ("GDP_BillionUSD", "5")]
      = (AddOutcome.added 2,
         some [[("CountryID", Value.intV 1), ("CountryName", Value.strV "Testland"),
                ("GDP_BillionUSD", Value.strV "10"),
                ("MiningRevenue_BillionUSD", Value.strV ""),
                ("KeyProjects", Value.strV "")],
               [("CountryID", Value.intV 2), ("CountryName", Value.strV "Otherland"),
                ("GDP_BillionUSD", Value.strV "5"),
                ("MiningRevenue_BillionUSD", Value.strV ""),
                ("KeyProjects", Value.strV "")]])) := by
  constructor
  · intro s f file h
    constructor
    · intro hempty
      simp [CSVStore.next_id, h, hempty]
    · intro hne
      have hb : (CSVStore.load file).isEmpty = false := by
        cases hdf : CSVStore.load file with
        | nil => exact absurd hdf hne
        | cons r rs => rfl
      simp [CSVStore.next_id, h, hb]
  · constructor <;> decide

/-- Witness for C6: the general clause applied to a concrete empty and a
concrete nonempty Country store. -/
theorem C6_next_id_witness :
    CSVStore.next_id ⟨some "CountryID"⟩ (some []) = 1 ∧
    CSVStore.next_id ⟨some "CountryID"⟩ (some [[("CountryID", Value.intV 4)]])
      = listMax (colInts (CSVStore.load (some [[("CountryID", Value.intV 4)]]))
          "CountryID") + 1 :=
  ⟨(C6_next_id_spec_and_scenario.1 ⟨some "CountryID"⟩ "CountryID" (some []) rfl).1 rfl,
   (C6_next_id_spec_and_scenario.1 ⟨some "CountryID"⟩ "CountryID"
      (some [[("CountryID", Value.intV 4)]]) rfl).2 (by decide)⟩

/-- C7 counterexample: over the trace add, add, add, delete 3, delete 2,
add, the appends assign the ids 1, 2, 3, 2 in order; immediately after the
final append `next_id` returns 3, which is not strictly greater than the
previously assigned id 3 — ids of deleted records are re-assigned. -/
theorem C7_deleted_id_reused :
    (runOps ⟨some "CountryID"⟩ "CountryID"
        [StoreOp.add, StoreOp.add, StoreOp.add, StoreOp.del 3, StoreOp.del 2,
         StoreOp.add] (some [])).2 = [1, 2, 3, 2] ∧
    CSVStore.next_id ⟨some "CountryID"⟩
        (runOps ⟨some "CountryID"⟩ "CountryID"
          [StoreOp.add, StoreOp.add, StoreOp.add, StoreOp.del 3, StoreOp.del 2,
           StoreOp.add] (some [])).1 = 3 ∧
    ¬ (∀ a ∈ (runOps ⟨some "CountryID"⟩ "CountryID"
          [StoreOp.add, StoreOp.add, StoreOp.add, StoreOp.del 3, StoreOp.del 2,
           StoreOp.add] (some [])).2,
        a < CSVStore.next_id ⟨some "CountryID"⟩
          (runOps ⟨some "CountryID"⟩ "CountryID"
            [StoreOp.add, StoreOp.add, StoreOp.add, StoreOp.del 3, StoreOp.del 2,
             StoreOp.add] (some [])).1) := by
  decide

/-- C7 (amended): immediately after an append, `next_id` returns a value
strictly greater than every id currently present in the stored collection
(including the id of the appended record); it need not exceed ids of
records that have since been deleted. -/
theorem C7_next_id_after_append (s : CSVStore) (f : String) (file : FileState)
    (row : Record) (h : s.id_field = some f) :
    ∀ v ∈ colInts (CSVStore.load (CSVStore.append_row file row).2) f,
      v < CSVStore.next_id s (CSVStore.append_row file row).2 :=
  fun v hv => next_id_gt_stored s f _ h v hv

/-- Witness for C7 (amended): after appending id 5 to a store holding id 2,
`next_id` exceeds the stored id 5 of the appended record. -/
theorem C7_next_id_after_append_witness :
    (5 : Int) ∈ colInts (CSVStore.load (CSVStore.append_row
        (some [[("CountryID", Value.intV 2)]]) [("CountryID", Value.intV 5)]).2)
        "CountryID" ∧
    (5 : Int) < CSVStore.next_id ⟨some "CountryID"⟩
        (CSVStore.append_row (some [[("CountryID", Value.intV 2)]])
          [("CountryID", Value.intV 5)]).2 :=
  ⟨by decide,
   C7_next_id_after_append ⟨some "CountryID"⟩ "CountryID"
     (some [[("CountryID", Value.intV 2)]]) [("CountryID", Value.intV 5)] rfl
     5 (by decide)⟩

/-- C5: the dataset-visibility check returns true for the Administrator
role regardless of the registry; otherwise it returns true iff some
registry entry grants the role or the username, and it returns false on an
empty, missing, or unreadable registry (fails closed). -/
theorem C5_is_visible_characterization (username role : String)
    (registry : Option (List ShareEntry)) :
    (role = "Administrator" →
      is_dataset_shared_for_user username role registry = true) ∧
    (role ≠ "Administrator" →
      (is_dataset_shared_for_user username role registry = true ↔
        ∃ entries, registry = some entries ∧ ∃ e ∈ entries,
          (e.sharedType = "role" ∧ e.sharedValue = role) ∨
          (e.sharedType = "user" ∧ e.sharedValue = username)) ∧
      is_dataset_shared_for_user username role none = false ∧
      is_dataset_shared_for_user username role (some []) = false) := by
  constructor
  · intro h
    simp [is_dataset_shared_for_user, h]
  · intro h
    refine ⟨?_, by simp [is_dataset_shared_for_user, h],
      by simp [is_dataset_shared_for_user, h, shareScan]⟩
    cases registry with
    | none => simp [is_dataset_shared_for_user, h]
    | some entries =>
        simp [is_dataset_shared_for_user, h, shareScan_eq_true_iff]

/-- Witness for C5: a role grant makes the dataset visible to an Investor,
while a missing registry stays invisible. -/
theorem C5_is_visible_witness :
    is_dataset_shared_for_user "bob" "Investor"
        (some [⟨"role", "Investor", "admin", "T0"⟩]) = true ∧
    is_dataset_shared_for_user "bob" "Investor" none = false ∧
    is_dataset_shared_for_user "admin2" "Administrator" none = true :=
  ⟨((C5_is_visible_characterization "bob" "Investor"
        (some [⟨"role", "Investor", "admin", "T0"⟩])).2 (by decide)).1.mpr
      ⟨[⟨"role", "Investor", "admin", "T0"⟩], rfl,
       ⟨"role", "Investor", "admin", "T0"⟩, List.mem_singleton_self _,
       Or.inl ⟨rfl, rfl⟩⟩,
   ((C5_is_visible_characterization "bob" "Investor" none).2 (by decide)).2.1,
   (C5_is_visible_characterization "admin2" "Administrator" none).1 rfl⟩

/-- A Site add with a nonempty error list is rejected and does not save. -/
theorem admin_entity_add_sites_rejected (file : FileState) (form : Form)
    (h : validate_site form ≠ []) :
    admin_entity_add sitesCfg file form
      = (AddOutcome.rejected (validate_site form), file) := by
  unfold admin_entity_add
  simp [sitesCfg, h]

/-- A Site edit of an existing record with a nonempty error list is
rejected and does not save. -/
theorem admin_entity_edit_sites_rejected (file : FileState) (form : Form)
    (obj_id : Int)
    (hex : ∃ r ∈ CSVStore.load file,
      Record.get r "SiteID" = some (Value.intV obj_id))
    (h : validate_site form ≠ []) :
    admin_entity_edit sitesCfg file obj_id form
      = (EditOutcome.rejected (validate_site form), file) := by
  obtain ⟨l2, hl2⟩ := updateFirst_isSome_of_exists
    (fun r => decide (Record.get r "SiteID" = some (Value.intV obj_id)))
    (applyForm sitesCfg.fields sitesCfg.id form) (CSVStore.load file)
    (by
      obtain ⟨r, hr, hid⟩ := hex
      exact ⟨r, hr, decide_eq_true hid⟩)
  unfold admin_entity_edit
  simp only [sitesCfg] at hl2 ⊢
  rw [hl2]
  simp [h]

/-- A production add is never rejected: validation runs only for
`sites.csv`. -/
theorem admin_entity_add_production_not_rejected (file : FileState) (form : Form)
    (errs : List String) :
    (admin_entity_add productionCfg file form).1 ≠ AddOutcome.rejected errs := by
  unfold admin_entity_add
  intro hcontra
  simp [productionCfg] at hcontra

/-- A production edit is never rejected with validation errors. -/
theorem admin_entity_edit_production_not_rejected (file : FileState) (form : Form)
    (obj_id : Int) (errs : List String) :
    (admin_entity_edit productionCfg file obj_id form).1
      ≠ EditOutcome.rejected errs := by
  unfold admin_entity_edit
  simp only [productionCfg]
  cases hrec : updateFirst
      (fun r => decide (Record.get r "StatID" = some (Value.intV obj_id)))
      (applyForm ["StatID", "Year", "CountryID", "MineralID", "Production_tonnes",
        "ExportValue_BillionUSD"] "StatID" form) (CSVStore.load file) with
  | none =>
      intro hcontra
      simp at hcontra
  | some df2 =>
      intro hcontra
      simp at hcontra

/-- C1 counterexample: a ProductionStat add whose Production_tonnes is -5
violates the non-negativity rule (it parses to -5 < 0), yet the write is
not rejected: the record is persisted, because the inline validation runs
only when the entity is backed by sites.csv. -/
theorem C1_production_write_unvalidated :
    parseFloat? "-5" = some (-5) ∧ ((-5 : ℚ) < 0) ∧
    admin_entity_add productionCfg (some []) [("Production_tonnes", "-5")]
      = (AddOutcome.added 1,
         some [[("StatID", Value.intV 1), ("Year", Value.strV ""),
                ("CountryID", Value.strV ""), ("MineralID", Value.strV ""),
                ("Production_tonnes", Value.strV "-5"),
                ("ExportValue_BillionUSD", Value.strV "")]]) := by
  refine ⟨by decide, by norm_num, by decide⟩

/-- C1 (amended): the field validator is applied on every Site write (add
and edit) before persisting and a violating Site write is rejected;
ProductionStat writes are not validated — a ProductionStat add or edit is
never rejected with validation errors. -/
theorem C1_validator_scope (file : FileState) (form : Form) (obj_id : Int) :
    (validate_site form ≠ [] →
      admin_entity_add sitesCfg file form
        = (AddOutcome.rejected (validate_site form), file)) ∧
    (validate_site form ≠ [] →
      (∃ r ∈ CSVStore.load file,
        Record.get r "SiteID" = some (Value.intV obj_id)) →
      admin_entity_edit sitesCfg file obj_id form
        = (EditOutcome.rejected (validate_site form), file)) ∧
    (∀ errs, (admin_entity_add productionCfg file form).1
      ≠ AddOutcome.rejected errs) ∧
    (∀ errs, (admin_entity_edit productionCfg file obj_id form).1
      ≠ EditOutcome.rejected errs) :=
  ⟨fun h => admin_entity_add_sites_rejected file form h,
   fun h hex => admin_entity_edit_sites_rejected file form obj_id hex h,
   fun errs => admin_entity_add_production_not_rejected file form errs,
   fun errs => admin_entity_edit_production_not_rejected file form obj_id errs⟩

/-- Witness for C1 (amended): the Latitude=95 site form is rejected on an
empty store, and the violating production form is not. -/
theorem C1_validator_scope_witness :
    validate_site [("Latitude", "95")] ≠ [] ∧
    admin_entity_add sitesCfg (some []) [("Latitude", "95")]
      = (AddOutcome.rejected (validate_site [("Latitude", "95")]), some []) ∧
    (admin_entity_add productionCfg (some []) [("Production_tonnes", "-5")]).1
      ≠ AddOutcome.rejected (validate_site [("Production_tonnes", "-5")]) :=
  ⟨by decide,
   (C1_validator_scope (some []) [("Latitude", "95")] 0).1 (by decide),
   (C1_validator_scope (some []) [("Production_tonnes", "-5")] 0).2.2.1
     (validate_site [("Production_tonnes", "-5")])⟩

/-- C4: a Site write (add, or edit of an existing record) whose submitted
Latitude, Longitude or Production_tonnes violates the validator bounds is
rejected with at least one error message, the error list mentions
"between -90 and 90" when Latitude parses out of range, and the backing
file is unchanged — the pre-write snapshot equals the post-rejected-write
snapshot. -/
theorem C4_invalid_site_write_rejected (file : FileState) (form : Form)
    (h : siteViolation form = true) :
    validate_site form ≠ [] ∧
    admin_entity_add sitesCfg file form
      = (AddOutcome.rejected (validate_site form), file) ∧
    (∀ obj_id : Int,
      (∃ r ∈ CSVStore.load file,
        Record.get r "SiteID" = some (Value.intV obj_id)) →
      admin_entity_edit sitesCfg file obj_id form
        = (EditOutcome.rejected (validate_site form), file)) ∧
    (∀ q : ℚ, parseFloat? (Form.get form "Latitude" "") = some q →
      q < -90 ∨ 90 < q → latitudeRangeError ∈ validate_site form) :=
  ⟨validate_site_ne_nil form h,
   admin_entity_add_sites_rejected file form (validate_site_ne_nil form h),
   fun obj_id hex =>
     admin_entity_edit_sites_rejected file form obj_id hex
       (validate_site_ne_nil form h),
   fun q hq hout => latitude_range_message form q hq hout⟩

/-- Witness for C4: adding a Site with Latitude=95 to a one-site store is
rejected with the "between -90 and 90" message and the file is unchanged;
editing the existing site with the same form is rejected identically. -/
theorem C4_invalid_site_write_witness :
    validate_site [("Latitude", "95")] ≠ [] ∧
    admin_entity_add sitesCfg
        (some [[("SiteID", Value.intV 1), ("Latitude", Value.strV "10")]])
        [("Latitude", "95")]
      = (AddOutcome.rejected (validate_site [("Latitude", "95")]),
         some [[("SiteID", Value.intV 1), ("Latitude", Value.strV "10")]]) ∧
    admin_entity_edit sitesCfg
        (some [[("SiteID", Value.intV 1), ("Latitude", Value.strV "10")]])
        1 [("Latitude", "95")]
      = (EditOutcome.rejected (validate_site [("Latitude", "95")]),
         some [[("SiteID", Value.intV 1), ("Latitude", Value.strV "10")]]) ∧
    latitudeRangeError ∈ validate_site [("Latitude", "95")] :=
  ⟨(C4_invalid_site_write_rejected
      (some [[("SiteID", Value.intV 1), ("Latitude", Value.strV "10")]])
      [("Latitude", "95")] (by decide)).1,
   (C4_invalid_site_write_rejected
      (some [[("SiteID", Value.intV 1), ("Latitude", Value.strV "10")]])
      [("Latitude", "95")] (by decide)).2.1,
   (C4_invalid_site_write_rejected
      (some [[("SiteID", Value.intV 1), ("Latitude", Value.strV "10")]])
      [("Latitude", "95")] (by decide)).2.2.1 1
     ⟨[("SiteID", Value.intV 1), ("Latitude", Value.strV "10")],
      List.mem_singleton_self _, by decide⟩,
   (C4_invalid_site_write_rejected
      (some [[("SiteID", Value.intV 1), ("Latitude", Value.strV "10")]])
      [("Latitude", "95")] (by decide)).2.2.2 95 (by decide)
     (Or.inr (by norm_num))⟩

/-- C3 counterexample: clearing an audit log holding one prior entry
yields a backup equal to the pre-clear log, but a live log of three lines
— the header plus two new entries (the synthetic audit_cleared entry and
the appended audit_clear event), not header plus exactly one entry. -/
theorem C3_live_log_two_entries :
    (admin_audit_clear
        [auditHeader, log_event_line "T0" "alice" "login_success" "/login" "ok"]
        "admin" "B" "T1" "T2").backup
      = [auditHeader, log_event_line "T0" "alice" "login_success" "/login" "ok"] ∧
    (admin_audit_clear
        [auditHeader, log_event_line "T0" "alice" "login_success" "/login" "ok"]
        "admin" "B" "T1" "T2").live.length = 3 ∧
    (admin_audit_clear
        [auditHeader, log_event_line "T0" "alice" "login_success" "/login" "ok"]
        "admin" "B" "T1" "T2").live.length ≠ 2 :=
  ⟨rfl, rfl, by decide⟩

/-- C3 (amended): after the clear the backup file equals the pre-clear log
byte for byte, and the live log consists of the header plus exactly two
new entries recording the clear — the synthetic audit_cleared entry
written with the truncation and the audit_clear event appended by
log_event; every line of the live log is one of these, so no entry from
before the clear remains. -/
theorem C3_clear_with_backup (log : List String) (user tsB ts ts2 : String) :
    (admin_audit_clear log user tsB ts ts2).backup = log ∧
    (admin_audit_clear log user tsB ts ts2).live
      = [auditHeader, clearedEntry ts user tsB,
         auditClearEventEntry ts2 user tsB] ∧
    ∀ l ∈ (admin_audit_clear log user tsB ts ts2).live,
      l = auditHeader ∨ l = clearedEntry ts user tsB ∨
        l = auditClearEventEntry ts2 user tsB := by
  refine ⟨rfl, rfl, ?_⟩
  intro l hl
  simpa [admin_audit_clear] using hl

/-- Witness for C3 (amended) on a concrete one-entry pre-clear log. -/
theorem C3_clear_with_backup_witness :
    (admin_audit_clear
        [auditHeader, log_event_line "T0" "alice" "page_view" "/map" "Viewed map"]
        "admin" "B" "T1" "T2").backup
      = [auditHeader, log_event_line "T0" "alice" "page_view" "/map" "Viewed map"] ∧
    (admin_audit_clear
        [auditHeader, log_event_line "T0" "alice" "page_view" "/map" "Viewed map"]
        "admin" "B" "T1" "T2").live
      = [auditHeader, clearedEntry "T1" "admin" "B",
         auditClearEventEntry "T2" "admin" "B"] ∧
    ∀ l ∈ (admin_audit_clear
        [auditHeader, log_event_line "T0" "alice" "page_view" "/map" "Viewed map"]
        "admin" "B" "T1" "T2").live,
      l = auditHeader ∨ l = clearedEntry "T1" "admin" "B" ∨
        l = auditClearEventEntry "T2" "admin" "B" :=
  C3_clear_with_backup
    [auditHeader, log_event_line "T0" "alice" "page_view" "/map" "Viewed map"]
    "admin" "B" "T1" "T2"

/-- C9: a persisted admin edit splits the stored collection around the
first record whose identifier equals the edited id; that record has each
non-identifier field overwritten with the submitted value when present in
the form and keeps its existing value when absent, its identifier field is
unchanged, and every other record — before and after it, in order — is
unchanged. -/
theorem C9_edit_overwrite_frame (cfg : EntityCfg) (file : FileState)
    (obj_id : Int) (form : Form) (file2 : FileState)
    (h : admin_entity_edit cfg file obj_id form = (EditOutcome.updated, file2)) :
    ∃ pre r post,
      CSVStore.load file = pre ++ r :: post ∧
      Record.get r cfg.id = some (Value.intV obj_id) ∧
      (∀ x ∈ pre, Record.get x cfg.id ≠ some (Value.intV obj_id)) ∧
      file2 = some (pre ++ applyForm cfg.fields cfg.id form r :: post) ∧
      Record.get (applyForm cfg.fields cfg.id form r) cfg.id
        = Record.get r cfg.id ∧
      (∀ g ∈ cfg.fields, g ≠ cfg.id → ∀ s, Form.find? form g = some s →
        Record.get (applyForm cfg.fields cfg.id form r) g
          = some (Value.strV s)) ∧
      (∀ g, Form.find? form g = none →
        Record.get (applyForm cfg.fields cfg.id form r) g = Record.get r g) := by
  unfold admin_entity_edit at h
  dsimp only at h
  cases hrec : updateFirst
      (fun r => decide (Record.get r cfg.id = some (Value.intV obj_id)))
      (applyForm cfg.fields cfg.id form) (CSVStore.load file) with
  | none =>
      rw [hrec] at h
      simp at h
  | some df2 =>
      rw [hrec] at h
      dsimp only at h
      by_cases herr : (if cfg.csv = "sites.csv" then validate_site form else []) ≠ []
      · rw [if_pos herr] at h
        simp at h
      · rw [if_neg herr] at h
        have hsave : CSVStore.save df2 = file2 := congrArg Prod.snd h
        obtain ⟨pre, r, post, hsplit, hpre, htest, hdf2⟩ :=
          updateFirst_eq_some _ _ _ _ hrec
        refine ⟨pre, r, post, hsplit, of_decide_eq_true htest, ?_, ?_,
          applyForm_get_id cfg.fields cfg.id form r, ?_, ?_⟩
        · intro x hx
          exact of_decide_eq_false (hpre x hx)
        · rw [← hsave, hdf2]
          rfl
        · intro g hg hne s hs
          exact applyForm_get_present cfg.fields cfg.id form r g s hg hne hs
        · intro g hgnone
          exact applyForm_get_absent cfg.fields cfg.id form r g hgnone

/-- Witness for C9: editing CountryID 1 of a two-country store with a form
submitting only CountryName. -/
theorem C9_edit_overwrite_witness :
    ∃ pre r post,
      CSVStore.load (some
        [[("CountryID", Value.intV 1), ("CountryName", Value.strV "Old"),
          ("GDP_BillionUSD", Value.strV "7"),
          ("MiningRevenue_BillionUSD", Value.strV ""),
          ("KeyProjects", Value.strV "")],
         [("CountryID", Value.intV 2), ("CountryName", Value.strV "Keep"),
          ("GDP_BillionUSD", Value.strV "3"),
          ("MiningRevenue_BillionUSD", Value.strV ""),
          ("KeyProjects", Value.strV "")]]) = pre ++ r :: post ∧
      Record.get r countriesCfg.id = some (Value.intV 1) ∧
      (∀ x ∈ pre, Record.get x countriesCfg.id ≠ some (Value.intV 1)) ∧
      (some
        [[("CountryID", Value.intV 1), ("CountryName", Value.strV "NewName"),
          ("GDP_BillionUSD", Value.strV "7"),
          ("MiningRevenue_BillionUSD", Value.strV ""),
          ("KeyProjects", Value.strV "")],
         [("CountryID", Value.intV 2), ("CountryName", Value.strV "Keep"),
          ("GDP_BillionUSD", Value.strV "3"),
          ("MiningRevenue_BillionUSD", Value.strV ""),
          ("KeyProjects", Value.strV "")]] : FileState)
        = some (pre ++ applyForm countriesCfg.fields countriesCfg.id
            [("CountryName", "NewName")] r :: post) ∧
      Record.get (applyForm countriesCfg.fields countriesCfg.id
          [("CountryName", "NewName")] r) countriesCfg.id
        = Record.get r countriesCfg.id ∧
      (∀ g ∈ countriesCfg.fields, g ≠ countriesCfg.id →
        ∀ s, Form.find? [("CountryName", "NewName")] g = some s →
        Record.get (applyForm countriesCfg.fields countriesCfg.id
            [("CountryName", "NewName")] r) g = some (Value.strV s)) ∧
      (∀ g, Form.find? [("CountryName", "NewName")] g = none →
        Record.get (applyForm countriesCfg.fields countriesCfg.id
            [("CountryName", "NewName")] r) g = Record.get r g) :=
  C9_edit_overwrite_frame countriesCfg
    (some
      [[("CountryID", Value.intV 1), ("CountryName", Value.strV "Old"),
        ("GDP_BillionUSD", Value.strV "7"),
        ("MiningRevenue_BillionUSD", Value.strV ""),
        ("KeyProjects", Value.strV "")],
       [("CountryID", Value.intV 2), ("CountryName", Value.strV "Keep"),
        ("GDP_BillionUSD", Value.strV "3"),
        ("MiningRevenue_BillionUSD", Value.strV ""),
        ("KeyProjects", Value.strV "")]])
    1 [("CountryName", "NewName")]
    (some
      [[("CountryID", Value.intV 1), ("CountryName", Value.strV "NewName"),
        ("GDP_BillionUSD", Value.strV "7"),
        ("MiningRevenue_BillionUSD", Value.strV ""),
        ("KeyProjects", Value.strV "")],
       [("CountryID", Value.intV 2), ("CountryName", Value.strV "Keep"),
        ("GDP_BillionUSD", Value.strV "3"),
        ("MiningRevenue_BillionUSD", Value.strV ""),
        ("KeyProjects", Value.strV "")]])
    (by decide)

end MineralApp
